import Mathlib

/-!
Verification of the tabular-data core of `src/logic.py` (industry screening app).

The Python code manipulates pandas DataFrames of optional floating-point
numbers.  We embed the row-level computations shallowly:

* a float value is modelled as a rational number `ℚ` (the arithmetic the
  claims speak about is exact);
* an optional / possibly-missing value is `Option ℚ` (`none` = Python `None`
  resp. a missing key in the yfinance `info` dict);
* where IEEE special values matter (`normalise_for_gradient` can divide by
  zero) we use the explicit pseudo-float type `PF` with `nan`/`inf` values;
* a DataFrame column cell is `Cell` (numeric, non-numeric text, or NA).

Each definition is annotated with the source lines of `src/logic.py` it
embeds.
-/

/-- Python truthiness of an optional number: `None`, `0` and `0.0` are falsy.
Used by `logic.py:123` (`if market_cap and free_cashflow`) and
`logic.py:106` (`info.get("ebitMargins") or info.get("operatingMargins")`). -/
def truthyQ : Option ℚ → Bool
  | none => false
  | some q => q != 0

/-- Python truthiness of an optional string: `None` and `""` are falsy
(`logic.py:98`, `if not company_name`). -/
def truthyStr : Option String → Bool
  | none => false
  | some s => s != ""

/-- Python `a or b` on optional numbers: `a` when `a` is truthy, else `b`
(`logic.py:106`). -/
def pyOrQ (a b : Option ℚ) : Option ℚ :=
  if truthyQ a then a else b

/-- Python `a or b` on optional strings. -/
def pyOrStr (a b : Option String) : Option String :=
  if truthyStr a then a else b

/-- Round a rational to the nearest integer, halves to the even neighbour
(the rounding used by numpy/pandas `DataFrame.round`). -/
def roundHalfEven (q : ℚ) : ℤ :=
  let n := ⌊q⌋
  let f := q - n
  if f < 1/2 then n
  else if 1/2 < f then n + 1
  else if n % 2 = 0 then n else n + 1

/-- `DataFrame.round(2)` on a single numeric value (`logic.py:148,159`). -/
def round2 (q : ℚ) : ℚ :=
  (roundHalfEven (q * 100) : ℚ) / 100

/-- The fixed currency table of `logic.py:81`-`87`. -/
def exchange_rates : List (String × ℚ) :=
  [("USD", 1), ("EUR", 11/10), ("GBP", 13/10), ("JPY", 7/1000), ("CAD", 3/4)]

/-- `exchange_rates.get(currency, 1.0)` (`logic.py:102`): the rate from the
fixed table, `1.0` for any currency not listed. -/
def rateFor (currency : String) : ℚ :=
  if currency = "USD" then 1
  else if currency = "EUR" then 11/10
  else if currency = "GBP" then 13/10
  else if currency = "JPY" then 7/1000
  else if currency = "CAD" then 3/4
  else 1

/-- The yfinance `info` dict fields read by `fetch_additional_company_data`
(`logic.py:97`-`118`).  `none` stands for a missing key or a `None` value. -/
structure Info where
  currency : Option String
  shortName : Option String
  ebitMargins : Option ℚ
  operatingMargins : Option ℚ
  grossMargins : Option ℚ
  ebitdaMargins : Option ℚ
  totalRevenue : Option ℚ
  marketCap : Option ℚ
  freeCashflow : Option ℚ
  trailingPE : Option ℚ
  enterpriseToEbitda : Option ℚ
  enterpriseToRevenue : Option ℚ
deriving DecidableEq

/-- The per-row inputs drawn from the combined industry DataFrame
(`logic.py:90`-`95`). -/
structure SourceRow where
  symbol : String
  name : Option String
  industry : String
  market_weight : Option ℚ
  rating : String
deriving DecidableEq

/-- One enriched output row, the dict built at `logic.py:125`-`140` in the
fixed 14-column order of `logic.py:142`-`146`. -/
structure CompanyRow where
  name : Option String
  ticker : String
  revenue : Option ℚ
  marketCap : Option ℚ
  grossMargin : Option ℚ
  ebitMargin : Option ℚ
  ebitdaMargin : Option ℚ
  pe : Option ℚ
  evEbitda : Option ℚ
  evSales : Option ℚ
  pFcf : Option ℚ
  marketWeight : Option ℚ
  industry : String
  rating : String
deriving DecidableEq

/-- Currency conversion of `logic.py:120`-`122`:
`value * rate / 1_000_000` when the raw value is present, absent otherwise. -/
def convertMoney (raw : Option ℚ) (rate : ℚ) : Option ℚ :=
  raw.map (fun v => v * rate / 1000000)

/-- The loop body of `fetch_additional_company_data` (`logic.py:97`-`140`)
for one row, before the final `df.round(2)`. -/
def enrichRow (src : SourceRow) (info : Info) : CompanyRow :=
  let company_name := pyOrStr src.name info.shortName
  let rate := rateFor ((info.currency).getD "USD")
  let market_weight := (src.market_weight).map (fun v => v * 100)
  let ebit_margin := pyOrQ info.ebitMargins info.operatingMargins
  let gross_margin := (info.grossMargins).map (fun v => v * 100)
  let ebit_margin := ebit_margin.map (fun v => v * 100)
  let ebitda_margin := (info.ebitdaMargins).map (fun v => v * 100)
  let revenue := convertMoney info.totalRevenue rate
  let market_cap := convertMoney info.marketCap rate
  let free_cashflow := convertMoney info.freeCashflow rate
  let p_fcf :=
    if truthyQ market_cap && truthyQ free_cashflow then
      some ((market_cap.getD 0) / (free_cashflow.getD 0))
    else none
  { name := company_name
    ticker := src.symbol
    revenue := revenue
    marketCap := market_cap
    grossMargin := gross_margin
    ebitMargin := ebit_margin
    ebitdaMargin := ebitda_margin
    pe := info.trailingPE
    evEbitda := info.enterpriseToEbitda
    evSales := info.enterpriseToRevenue
    pFcf := p_fcf
    marketWeight := market_weight
    industry := src.industry
    rating := src.rating }

/-- `df.round(2)` (`logic.py:148`) applied to one enriched row: every
numeric column is rounded to 2 decimals, text columns are untouched. -/
def roundRow (r : CompanyRow) : CompanyRow :=
  { name := r.name
    ticker := r.ticker
    revenue := r.revenue.map round2
    marketCap := r.marketCap.map round2
    grossMargin := r.grossMargin.map round2
    ebitMargin := r.ebitMargin.map round2
    ebitdaMargin := r.ebitdaMargin.map round2
    pe := r.pe.map round2
    evEbitda := r.evEbitda.map round2
    evSales := r.evSales.map round2
    pFcf := r.pFcf.map round2
    marketWeight := r.marketWeight.map round2
    industry := r.industry
    rating := r.rating }

/-- One fully processed row of the DataFrame returned by
`fetch_additional_company_data` (loop body plus the final rounding). -/
def fetchRowData (src : SourceRow) (info : Info) : CompanyRow :=
  roundRow (enrichRow src info)

/-- `fetch_additional_company_data` (`logic.py:70`-`148`) over the whole
table; the yfinance lookup `info_dict.get(symbol, {})` of `logic.py:97` is
abstracted as the function `infoOf`. -/
def fetch_additional_company_data (src : List SourceRow) (infoOf : String → Info) :
    List CompanyRow :=
  src.map (fun r => fetchRowData r (infoOf r.symbol))

/-- The conversion rate actually used for a row: `logic.py:101`-`102`,
`info.get("currency", "USD")` then the table lookup with default `1.0`. -/
def effRate (info : Info) : ℚ := rateFor ((info.currency).getD "USD")

/-! ### Pseudo-floats and colour-scale normalisation (`logic.py:173`-`182`)

`normalise_for_gradient` divides by `upper - lower`, which is `0.0` when the
clipped column has zero variance, so its float arithmetic can produce IEEE
special values.  `PF` is a rational pseudo-float with explicit `nan`, `inf`
and `ninf`; in a pandas float Series the value `nan` is exactly the missing
value (`isna` holds of it, `dropna` removes it, `fill_value=None` inserts
it). -/

inductive PF where
  | q : ℚ → PF
  | nan : PF
  | inf : PF
  | ninf : PF
deriving DecidableEq

/-- IEEE subtraction on pseudo-floats. -/
def PF.sub : PF → PF → PF
  | PF.q a, PF.q b => PF.q (a - b)
  | PF.nan, _ => PF.nan
  | _, PF.nan => PF.nan
  | PF.inf, PF.inf => PF.nan
  | PF.inf, _ => PF.inf
  | PF.ninf, PF.ninf => PF.nan
  | PF.ninf, _ => PF.ninf
  | PF.q _, PF.inf => PF.ninf
  | PF.q _, PF.ninf => PF.inf

/-- IEEE division on pseudo-floats: `0/0` is `nan`, `x/0` for `x ≠ 0` is a
signed infinity. -/
def PF.div : PF → PF → PF
  | PF.q a, PF.q b =>
    if b = 0 then (if a = 0 then PF.nan else if 0 < a then PF.inf else PF.ninf)
    else PF.q (a / b)
  | PF.nan, _ => PF.nan
  | _, PF.nan => PF.nan
  | PF.inf, PF.q b => if b < 0 then PF.ninf else PF.inf
  | PF.ninf, PF.q b => if b < 0 then PF.inf else PF.ninf
  | PF.q _, PF.inf => PF.q 0
  | PF.q _, PF.ninf => PF.q 0
  | PF.inf, PF.inf => PF.nan
  | PF.inf, PF.ninf => PF.nan
  | PF.ninf, PF.inf => PF.nan
  | PF.ninf, PF.ninf => PF.nan

/-- A pseudo-float is pandas-missing exactly when it is `nan`. -/
def PF.isNA : PF → Bool
  | PF.nan => true
  | _ => false

/-- A possibly-missing quantile bound as a pseudo-float. -/
def ofOptQ : Option ℚ → PF
  | some x => PF.q x
  | none => PF.nan

/-- One cell of a DataFrame column: a numeric value, a string with no
numeric reading, or NA.  Strings that `pd.to_numeric` can parse are
represented directly as `Cell.num`. -/
inductive Cell where
  | num : ℚ → Cell
  | str : String → Cell
  | na : Cell
deriving DecidableEq

/-- `pd.to_numeric(x, errors="coerce")` on one cell: numeric values pass
through, everything else coerces to missing (`logic.py:153,164,175`). -/
def toNumeric : Cell → Option ℚ
  | Cell.num q => some q
  | Cell.str _ => none
  | Cell.na => none

/-- Insert into an ascending-sorted list of rationals. -/
def insertSorted (x : ℚ) : List ℚ → List ℚ
  | [] => [x]
  | y :: ys => if x ≤ y then x :: y :: ys else y :: insertSorted x ys

/-- Sort a list of rationals ascending (the order used by `quantile`). -/
def sortQ (xs : List ℚ) : List ℚ := xs.foldr insertSorted []

/-- `Series.quantile(q)` with the default linear interpolation on the sorted
values; `none` (NaN) on an empty series (`logic.py:176`-`177`). -/
def quantileSorted (xs : List ℚ) (q : ℚ) : Option ℚ :=
  if xs.isEmpty then none
  else
    let n := xs.length
    let pos : ℚ := q * ((n : ℚ) - 1)
    let i : ℕ := (⌊pos⌋).toNat
    let frac : ℚ := pos - (i : ℚ)
    let vi := xs.getD i 0
    let vj := xs.getD (i + 1) vi
    some (vi + frac * (vj - vi))

/-- `Series.quantile(q)` of an unordered numeric series. -/
def quantile (xs : List ℚ) (q : ℚ) : Option ℚ := quantileSorted (sortQ xs) q

/-- `Series.clip(lower, upper)` on one value; a missing (NaN) threshold does
not clip on that side (`logic.py:178`). -/
def clipQ (lo hi : Option ℚ) (x : ℚ) : ℚ :=
  let x1 := match lo with
    | some l => max x l
    | none => x
  match hi with
  | some h => min x1 h
  | none => x1

/-- The numeric distribution of a column: `pd.to_numeric(series,
errors="coerce").dropna()` (`logic.py:175`). -/
def seriesNumeric (series : List Cell) : List ℚ := series.filterMap toNumeric

/-- `normalise_for_gradient` (`logic.py:173`-`182`): clip to the 5th/95th
percentiles, rescale linearly, optionally invert, and reindex to the
original positions with NaN for rows dropped as non-numeric. -/
def normalise_for_gradient (series : List Cell) (reverse : Bool) : List PF :=
  let numeric := seriesNumeric series
  let lower := quantile numeric (1/20)
  let upper := quantile numeric (19/20)
  let denom := PF.sub (ofOptQ upper) (ofOptQ lower)
  let f : ℚ → PF := fun x =>
    let v := PF.div (PF.sub (PF.q (clipQ lower upper x)) (ofOptQ lower)) denom
    if reverse then PF.sub (PF.q 1) v else v
  series.map (fun c =>
    match toNumeric c with
    | some x => f x
    | none => PF.nan)

/-! ### Filtering, sorting and mutation (`logic.py:150`-`171`)

`apply_filters` and `apply_final_sorting_and_formatting` are modelled on a
frame of rows with a Market Cap column, a Rating column and a payload of
remaining columns.  Both functions write the coerced Market Cap column back
into the caller's frame (`df[...] = pd.to_numeric(...)` mutates the argument
in place), so each is embedded as a function returning a pair: the result,
and the caller's frame after the call. -/

structure FRow where
  cap : Cell
  rating : String
  rest : List Cell
deriving DecidableEq

structure DFrame where
  hasCap : Bool
  hasRating : Bool
  rows : List FRow
deriving DecidableEq

/-- The column write-back of `logic.py:153,164` on one cell: numeric cells
survive, non-numeric cells become missing. -/
def coerceCell (c : Cell) : Cell :=
  match toNumeric c with
  | some v => Cell.num v
  | none => Cell.na

/-- The column write-back on one row: only the Market Cap cell changes. -/
def coerceRow (r : FRow) : FRow :=
  ⟨coerceCell r.cap, r.rating, r.rest⟩

/-- `(df[c] >= lo) & (df[c] <= hi)` row selection (`logic.py:166`);
comparisons with NaN are false, so missing Market Cap rows drop out. -/
def capRangeFilter (lo hi : ℚ) (rows : List FRow) : List FRow :=
  rows.filter (fun r =>
    match toNumeric r.cap with
    | some v => decide (lo ≤ v) && decide (v ≤ hi)
    | none => false)

/-- Ranking used by `nlargest`: larger Market Cap first, ties kept in
original position order (pandas `nlargest` uses a stable mergesort with
`keep="first"`). -/
def rowLE (a b : ℕ × FRow) : Bool :=
  let qa := (toNumeric a.2.cap).getD 0
  let qb := (toNumeric b.2.cap).getD 0
  decide (qb < qa) || (decide (qa = qb) && decide (a.1 ≤ b.1))

/-- Insertion into a list sorted by the Boolean relation. -/
def insertBy (le : α → α → Bool) (x : α) : List α → List α
  | [] => [x]
  | y :: ys => if le x y then x :: y :: ys else y :: insertBy le x ys

/-- Insertion sort by a Boolean relation. -/
def sortBy (le : α → α → Bool) (xs : List α) : List α :=
  xs.foldr (insertBy le) []

/-- `df.nlargest(n, "Market Cap (M USD)")` (`logic.py:168`): drop missing
values, order by value descending with ties in original order, keep the
first `n` rows. -/
def nlargestRows (n : ℕ) (rows : List FRow) : List FRow :=
  let numbered := rows.enum
  let numeric := numbered.filter (fun p => (toNumeric p.2.cap).isSome)
  ((sortBy rowLE numeric).take n).map Prod.snd

/-- Python truthiness of the `selected_ratings` argument: `None` and the
empty collection are falsy (`logic.py:169`). -/
def truthyRatings : Option (List String) → Bool
  | none => false
  | some l => !l.isEmpty

/-- Python truthiness of the `top_n` argument: `None` and `0` are falsy
(`logic.py:167`). -/
def truthyTopN : Option ℕ → Bool
  | none => false
  | some n => n != 0

/-- `apply_filters` (`logic.py:161`-`171`).  Returns (result, caller's frame
after the call): the in-place coercion of the Market Cap column is visible
to the caller, the row filtering is not. -/
def apply_filters (df : DFrame) (cap_range : Option (ℚ × ℚ)) (top_n : Option ℕ)
    (selected_ratings : Option (List String)) : DFrame × DFrame :=
  let rows0 := if df.hasCap then df.rows.map coerceRow else df.rows
  let callerDf : DFrame := ⟨df.hasCap, df.hasRating, rows0⟩
  let rows1 :=
    if df.hasCap then
      let rowsR := match cap_range with
        | some (lo, hi) => capRangeFilter lo hi rows0
        | none => rows0
      if truthyTopN top_n then nlargestRows ((top_n).getD 0) rowsR else rowsR
    else rows0
  let rows2 :=
    if truthyRatings selected_ratings && df.hasRating then
      rows1.filter (fun r => ((selected_ratings).getD []).contains r.rating)
    else rows1
  (⟨df.hasCap, df.hasRating, rows2⟩, callerDf)

/-- Descending sort step of `logic.py:154` with `na_position="last"`:
numeric rows ordered by Market Cap descending, missing-cap rows after them.
Ties are kept in original order here; the source calls `sort_values` with
the default (unstable) quicksort, so the tie order of this embedding is one
of the permutations the source may produce, not a guarantee of the code. -/
def sortRowsDesc (rows : List FRow) : List FRow :=
  let numbered := rows.enum
  let numeric := numbered.filter (fun p => (toNumeric p.2.cap).isSome)
  let missing := numbered.filter (fun p => (toNumeric p.2.cap).isNone)
  ((sortBy rowLE numeric) ++ missing).map Prod.snd

/-- `df.round(2)` on one cell: numeric cells are rounded, others kept. -/
def roundCell : Cell → Cell
  | Cell.num v => Cell.num (round2 v)
  | c => c

/-- `df.round(2)` on one row of the filtering frame. -/
def roundFRow (r : FRow) : FRow :=
  ⟨roundCell r.cap, r.rating, r.rest.map roundCell⟩

/-- `apply_final_sorting_and_formatting` (`logic.py:150`-`159`).  Returns
(result, caller's frame after the call); the result is re-indexed `1..n` in
its final order (`reset_index` then `index + 1`), which the list order of
`rows` represents positionally. -/
def apply_final_sorting_and_formatting (df : DFrame) : DFrame × DFrame :=
  let rows0 := if df.hasCap then df.rows.map coerceRow else df.rows
  let callerDf : DFrame := ⟨df.hasCap, df.hasRating, rows0⟩
  let sorted := if df.hasCap then sortRowsDesc rows0 else rows0
  (⟨df.hasCap, df.hasRating, sorted.map roundFRow⟩, callerDf)

/-! ### Upload ingestion (`logic.py:204`-`255`)

The parsed spreadsheet is a grid of optional strings (`none` = an empty /
NaN cell); cells holding numbers are represented by their `astype(str)`
form.  The success branch (yfinance lookup, enrichment, concatenation) is
I/O; the embedding returns the cleaned ticker list that branch would feed
into `fetch_additional_company_data`, so the claims about the two error
branches are decidable. -/

def shapeErrorMsg : String :=
  "Excel file must contain exactly 1 ticker per row (extra columns detected)."

def noTickersMsg : String :=
  "No valid tickers found in uploaded file. Ensure 1 ticker per row."

/-- Number of columns of the parsed frame (`custom_df.shape[1]`). -/
def gridNCols (grid : List (List (Option String))) : ℕ :=
  (grid.map List.length).foldr max 0

/-- The first column (`custom_df.iloc[:, 0]`). -/
def gridCol0 (grid : List (List (Option String))) : List (Option String) :=
  grid.map (fun row => (row.get? 0).join)

/-- `logic.py:220`-`223`: drop NaN, strip whitespace, uppercase, drop empty
strings. -/
def normTickers (col0 : List (Option String)) : List String :=
  (((col0.filterMap id).map (fun s => s.trim.toUpper)).filter (fun s => s ≠ ""))

/-- Auxiliary for first-occurrence deduplication. -/
def dedupFirstAux : List String → List String → List String
  | [], _ => []
  | x :: xs, seen =>
    if x ∈ seen then dedupFirstAux xs seen else x :: dedupFirstAux xs (x :: seen)

/-- `Series.drop_duplicates()` (`logic.py:230`): keep first occurrences. -/
def dedupFirst (l : List String) : List String := dedupFirstAux l []

/-- `logic.py:226`: `custom_df.shape[1] > 1 and
custom_df.iloc[:, 1:].notna().any().any()`. -/
def extraColumnsCheck (grid : List (List (Option String))) : Bool :=
  decide (1 < gridNCols grid) &&
    grid.any (fun row => (row.drop 1).any (fun c => c.isSome))

/-- `process_uploaded_tickers` (`logic.py:204`-`255`) after a successful
parse: either `(some cleanedTickers, none)` (success: the tickers fed to
enrichment) or `(none, some message)` (rejection; the existing table is
untouched — the source only reads `existing_df` on the success branch). -/
def process_uploaded_tickers (grid : List (List (Option String))) :
    Option (List String) × Option String :=
  let tickers := normTickers (gridCol0 grid)
  if extraColumnsCheck grid then (none, some shapeErrorMsg)
  else
    let tickers := dedupFirst tickers
    if tickers.isEmpty then (none, some noTickersMsg)
    else (some tickers, none)

/-! ### Concrete instances used by counterexamples and witnesses -/

def cexSrc : SourceRow := ⟨"T", none, "", none, ""⟩

/-- Market Cap present and equal to zero, Free Cash Flow present and
non-zero. -/
def c1Info : Info :=
  ⟨some "USD", none, none, none, none, none, none, some 0, some 5000000, none, none, none⟩

/-- Direct EBIT margin present and equal to zero, operating margin 5%. -/
def c3Info : Info :=
  ⟨none, none, some 0, some (1/20), none, none, none, none, none, none, none, none⟩

def wInfo : Info :=
  ⟨none, none, none, none, none, none, none, some 2000000, some 1000000, none, none, none⟩

def chfInfo : Info :=
  ⟨some "CHF", none, none, none, none, none, some 3000000, none, none, none, none, none⟩

def emInfo : Info :=
  ⟨none, none, some (1/10), some (1/20), none, none, none, none, none, none, none, none⟩

/-- A 50-row table, all rated Buy, Market Caps 0..49. -/
def df50 : DFrame :=
  ⟨true, true, (List.range 50).map (fun i : ℕ => ⟨Cell.num (i : ℚ), "Buy", []⟩)⟩

/-- A small mixed table: one numeric cap, one non-numeric. -/
def dfEx : DFrame :=
  ⟨true, true, [⟨Cell.num 5, "Buy", []⟩, ⟨Cell.str "x", "Sell", [Cell.num 1]⟩]⟩

/-- A zero-variance column with a non-numeric row. -/
def degenSeries : List Cell := [Cell.num 5, Cell.num 5, Cell.str "x"]

/-- The column 1, 2, ..., 100. -/
def series100 : List Cell := (List.range 100).map (fun i : ℕ => Cell.num ((i : ℚ) + 1))

/-- Upload whose first column is all empty and whose second column holds a
value: triggers both rejection conditions at once. -/
def overlapGrid : List (List (Option String)) := [[none, some "X"]]

/-- Upload with a populated second column. -/
def twoColGrid : List (List (Option String)) := [[some " a ", some "b"]]

/-- Upload with a single, all-empty column. -/
def emptyColGrid : List (List (Option String)) := [[none], [none]]

/-! ## Theorems

General lemmas first, then one theorem (plus counterexample/witness) for
each claim. -/

theorem rateFor_ne_zero (c : String) : rateFor c ≠ 0 := by
  unfold rateFor
  split_ifs <;> norm_num

theorem truthyQ_convertMoney (raw : Option ℚ) (rate : ℚ) (h : rate ≠ 0) :
    truthyQ (convertMoney raw rate) = truthyQ raw := by
  cases raw with
  | none => rfl
  | some v =>
    have hiff : (v * rate / 1000000 = 0) ↔ (v = 0) := by
      rw [div_eq_zero_iff, mul_eq_zero]
      norm_num [h]
    show (v * rate / 1000000 != 0) = (v != 0)
    rw [Bool.eq_iff_iff]
    simp [bne_iff_ne, hiff]

/-- Claim C1 (amended): for every enriched row, P/FCF is present iff the raw
Market Cap and the raw Free Cash Flow are both present and both non-zero
(Python truthiness of the converted values); when present it equals
converted Market Cap divided by converted Free Cash Flow, computed on the
unrounded intermediates and rounded to 2 decimals on output. -/
theorem pfcf_presence_and_value (src : SourceRow) (info : Info) :
    ((fetchRowData src info).pFcf.isSome
      = (truthyQ info.marketCap && truthyQ info.freeCashflow))
    ∧ (∀ mc fc, info.marketCap = some mc → info.freeCashflow = some fc →
        mc ≠ 0 → fc ≠ 0 →
        (fetchRowData src info).pFcf =
          some (round2 ((mc * effRate info / 1000000) /
                        (fc * effRate info / 1000000)))) := by
  have hr := rateFor_ne_zero ((info.currency).getD "USD")
  constructor
  · simp only [fetchRowData, enrichRow, roundRow]
    rw [truthyQ_convertMoney _ _ hr, truthyQ_convertMoney _ _ hr]
    by_cases h1 : truthyQ info.marketCap <;> by_cases h2 : truthyQ info.freeCashflow <;>
      simp [h1, h2]
  · intro mc fc hmc hfc hmc0 hfc0
    simp [fetchRowData, enrichRow, roundRow, convertMoney, hmc, hfc, truthyQ, effRate,
      hmc0, hfc0, hr, div_eq_zero_iff, mul_eq_zero]

/-- Claim C1 counterexample: a row whose raw Market Cap is present and equal
to 0 and whose raw Free Cash Flow is present and non-zero has P/FCF absent,
not present-and-zero as the claim states — `logic.py:123` tests Python
truthiness of the converted Market Cap, and `0.0` is falsy. -/
theorem pfcf_zero_marketcap_cex :
    c1Info.marketCap = some 0 ∧ c1Info.freeCashflow = some 5000000
    ∧ (5000000 : ℚ) ≠ 0 ∧ (fetchRowData cexSrc c1Info).pFcf = none := by
  refine ⟨rfl, rfl, by norm_num, ?_⟩
  norm_num [fetchRowData, enrichRow, roundRow, convertMoney, c1Info, cexSrc, truthyQ, rateFor]

theorem pfcf_presence_and_value_witness :
    ((fetchRowData cexSrc wInfo).pFcf.isSome
      = (truthyQ wInfo.marketCap && truthyQ wInfo.freeCashflow))
    ∧ (fetchRowData cexSrc wInfo).pFcf =
        some (round2 ((2000000 * effRate wInfo / 1000000) /
                      (1000000 * effRate wInfo / 1000000))) :=
  ⟨(pfcf_presence_and_value cexSrc wInfo).1,
   (pfcf_presence_and_value cexSrc wInfo).2 2000000 1000000 rfl rfl
     (by norm_num) (by norm_num)⟩

/-- Claim C2: every monetary field is present exactly when the raw source
value is present and then equals raw value times the currency rate divided
by 1,000,000, rounded to 2 decimals on output (Free Cash Flow is the
unrounded intermediate of `logic.py:122`; it has no output column of its
own); a missing currency or a currency outside the fixed table contributes
rate 1.0, and each listed currency contributes its table rate. -/
theorem monetary_fields (src : SourceRow) (info : Info) :
    ((fetchRowData src info).revenue =
      (info.totalRevenue).map (fun v => round2 (v * effRate info / 1000000)))
    ∧ ((fetchRowData src info).marketCap =
      (info.marketCap).map (fun v => round2 (v * effRate info / 1000000)))
    ∧ (convertMoney info.freeCashflow (effRate info) =
      (info.freeCashflow).map (fun v => v * effRate info / 1000000))
    ∧ ((fetchRowData src info).revenue.isSome = (info.totalRevenue).isSome)
    ∧ ((fetchRowData src info).marketCap.isSome = (info.marketCap).isSome)
    ∧ (info.currency = none → effRate info = 1)
    ∧ (∀ c, info.currency = some c → c ∉ exchange_rates.map Prod.fst → effRate info = 1)
    ∧ (∀ c r, (c, r) ∈ exchange_rates → rateFor c = r) := by
  refine ⟨?_, ?_, ?_, ?_, ?_, ?_, ?_, ?_⟩
  · simp [fetchRowData, enrichRow, roundRow, convertMoney, Option.map_map, effRate,
      Function.comp_def]
  · simp [fetchRowData, enrichRow, roundRow, convertMoney, Option.map_map, effRate,
      Function.comp_def]
  · simp [convertMoney]
  · simp [fetchRowData, enrichRow, roundRow, convertMoney]
  · simp [fetchRowData, enrichRow, roundRow, convertMoney]
  · intro h
    simp [effRate, h, rateFor]
  · intro c hc hmem
    simp [exchange_rates] at hmem
    push_neg at hmem
    simp [effRate, hc, rateFor, hmem.1, hmem.2.1, hmem.2.2.1, hmem.2.2.2]
  · intro c r h
    simp [exchange_rates] at h
    rcases h with ⟨rfl, rfl⟩ | ⟨rfl, rfl⟩ | ⟨rfl, rfl⟩ | ⟨rfl, rfl⟩ | ⟨rfl, rfl⟩ <;> rfl

theorem monetary_fields_witness :
    effRate c3Info = 1 ∧ effRate chfInfo = 1 ∧ rateFor "EUR" = 11/10 :=
  ⟨(monetary_fields cexSrc c3Info).2.2.2.2.2.1 rfl,
   (monetary_fields cexSrc chfInfo).2.2.2.2.2.2.1 "CHF" rfl (by decide),
   (monetary_fields cexSrc chfInfo).2.2.2.2.2.2.2 "EUR" (11/10) (by simp [exchange_rates])⟩

/-- Claim C3 (amended): Gross and EBITDA margins equal the raw fraction
times 100 when present (rounded on output); the EBIT margin is taken from
the direct EBIT-margin field when that field is present AND non-zero, and
falls back to the operating-margin field when the direct field is absent
or zero — a present direct value of 0 is replaced by the operating margin
(`logic.py:106` uses Python `or`, for which `0.0` is falsy). -/
theorem margin_fields (src : SourceRow) (info : Info) :
    ((fetchRowData src info).grossMargin =
      (info.grossMargins).map (fun v => round2 (v * 100)))
    ∧ ((fetchRowData src info).ebitdaMargin =
      (info.ebitdaMargins).map (fun v => round2 (v * 100)))
    ∧ (∀ v, info.ebitMargins = some v → v ≠ 0 →
        (fetchRowData src info).ebitMargin = some (round2 (v * 100)))
    ∧ (info.ebitMargins = some 0 →
        (fetchRowData src info).ebitMargin =
          (info.operatingMargins).map (fun v => round2 (v * 100)))
    ∧ (info.ebitMargins = none →
        (fetchRowData src info).ebitMargin =
          (info.operatingMargins).map (fun v => round2 (v * 100))) := by
  refine ⟨?_, ?_, ?_, ?_, ?_⟩
  · simp [fetchRowData, enrichRow, roundRow, Option.map_map, Function.comp_def]
  · simp [fetchRowData, enrichRow, roundRow, Option.map_map, Function.comp_def]
  · intro v hv hv0
    simp [fetchRowData, enrichRow, roundRow, pyOrQ, truthyQ, hv, hv0]
  · intro h
    simp [fetchRowData, enrichRow, roundRow, pyOrQ, truthyQ, h, Option.map_map,
      Function.comp_def]
  · intro h
    simp [fetchRowData, enrichRow, roundRow, pyOrQ, truthyQ, h, Option.map_map,
      Function.comp_def]

/-- Claim C3 counterexample: with a present EBIT-margin of 0 and an
operating margin of 5%, the enriched EBIT Margin is 5 — the present 0 is
NOT used as-is, contradicting the claim. -/
theorem ebit_margin_zero_cex :
    c3Info.ebitMargins = some 0 ∧ c3Info.operatingMargins = some (1/20)
    ∧ (fetchRowData cexSrc c3Info).ebitMargin = some 5 ∧ (5 : ℚ) ≠ 0 := by
  refine ⟨rfl, rfl, ?_, by norm_num⟩
  norm_num [fetchRowData, enrichRow, roundRow, c3Info, cexSrc, truthyQ, pyOrQ, round2,
    roundHalfEven]

theorem margin_fields_witness :
    ((fetchRowData cexSrc emInfo).ebitMargin = some (round2 ((1/10) * 100)))
    ∧ ((fetchRowData cexSrc c3Info).ebitMargin =
        (c3Info.operatingMargins).map (fun v => round2 (v * 100)))
    ∧ ((fetchRowData cexSrc c1Info).ebitMargin =
        (c1Info.operatingMargins).map (fun v => round2 (v * 100))) :=
  ⟨(margin_fields cexSrc emInfo).2.2.1 (1/10) rfl (by norm_num),
   (margin_fields cexSrc c3Info).2.2.2.1 rfl,
   (margin_fields cexSrc c1Info).2.2.2.2 rfl⟩

/-! ### Colour-scale normalisation: degenerate column (C4) and endpoints (C7) -/

theorem normalise_pointwise_degenerate (lo : Option ℚ) (reverse : Bool) (x : ℚ) :
    (let v := PF.div (PF.sub (PF.q (clipQ lo lo x)) (ofOptQ lo)) (PF.sub (ofOptQ lo) (ofOptQ lo));
     if reverse then PF.sub (PF.q 1) v else v) = PF.nan := by
  cases lo with
  | none => cases reverse <;> simp [clipQ, ofOptQ, PF.sub, PF.div]
  | some l =>
    cases reverse <;>
      simp [clipQ, ofOptQ, PF.sub, PF.div, min_eq_right (le_max_right x l)]

/-- Claim C4: when the 5th-percentile lower bound equals the 95th-percentile
upper bound (zero-variance column after clipping, or no numeric data at
all), every normalised value the function emits is the pandas missing value
`nan` — in the non-empty case the numerator of the rescaling division is
exactly 0, so `0.0/0.0` gives NaN and never a signed infinity; NaN is what
pandas treats as absent (`isna`), and it renders as "no colour", so no Inf
and no computed error value reaches the user-visible table. -/
theorem normalise_degenerate (series : List Cell) (reverse : Bool)
    (h : quantile (seriesNumeric series) (1/20) = quantile (seriesNumeric series) (19/20)) :
    ∀ v ∈ normalise_for_gradient series reverse, v = PF.nan := by
  intro v hv
  simp only [normalise_for_gradient] at hv
  rw [← h] at hv
  rw [List.mem_map] at hv
  obtain ⟨c, hc, hveq⟩ := hv
  cases hx : toNumeric c with
  | none => rw [hx] at hveq; exact hveq.symm
  | some x =>
    rw [hx] at hveq
    rw [← hveq]
    exact normalise_pointwise_degenerate (quantile (seriesNumeric series) (1/20)) reverse x

theorem normalise_degenerate_witness :
    (quantile (seriesNumeric degenSeries) (1/20) = quantile (seriesNumeric degenSeries) (19/20))
    ∧ ∀ v ∈ normalise_for_gradient degenSeries false, v = PF.nan := by
  have hq : quantile (seriesNumeric degenSeries) (1/20)
      = quantile (seriesNumeric degenSeries) (19/20) := by
    norm_num [quantile, seriesNumeric, degenSeries, toNumeric, sortQ, insertSorted,
      quantileSorted, List.filterMap_cons, List.filterMap_nil]
  exact ⟨hq, normalise_degenerate degenSeries false hq⟩

theorem seriesNumeric_series100 :
    seriesNumeric series100 = (List.range 100).map (fun i : ℕ => (i : ℚ) + 1) := by
  simp only [seriesNumeric, series100, List.filterMap_map]
  show List.filterMap (some ∘ fun i : ℕ => ((i : ℚ) + 1)) (List.range 100) = _
  rw [List.filterMap_eq_map]

theorem insertSorted_cons_of_le (x : ℚ) (l : List ℚ) (h : ∀ y ∈ l, x ≤ y) :
    insertSorted x l = x :: l := by
  cases l with
  | nil => rfl
  | cons y ys => simp [insertSorted, h y (by simp)]

theorem sortQ_of_sorted (l : List ℚ) (hl : l.Pairwise (fun a b => a ≤ b)) : sortQ l = l := by
  induction l with
  | nil => rfl
  | cons x xs ih =>
    rw [List.pairwise_cons] at hl
    show insertSorted x (sortQ xs) = x :: xs
    rw [ih hl.2, insertSorted_cons_of_le x xs hl.1]

theorem sortQ_series100 :
    sortQ ((List.range 100).map (fun i : ℕ => (i : ℚ) + 1))
      = (List.range 100).map (fun i : ℕ => (i : ℚ) + 1) := by
  apply sortQ_of_sorted
  refine List.Pairwise.map _ ?_ (List.pairwise_lt_range 100)
  intro a b hab
  have h2 : (a : ℚ) < (b : ℚ) := by exact_mod_cast hab
  linarith

theorem quantile_series100_low :
    quantile (seriesNumeric series100) (1/20) = some (119/20) := by
  rw [seriesNumeric_series100, quantile, sortQ_series100]
  simp only [quantileSorted]
  norm_num [List.getD, List.getElem?_map, List.getElem?_range]
  norm_num [show Int.toNat 4 = 4 from rfl, List.getElem?_range]

theorem quantile_series100_high :
    quantile (seriesNumeric series100) (19/20) = some (1901/20) := by
  rw [seriesNumeric_series100, quantile, sortQ_series100]
  simp only [quantileSorted]
  norm_num [List.getD, List.getElem?_map, List.getElem?_range]
  norm_num [show Int.toNat 94 = 94 from rfl, List.getElem?_range]

theorem normalise_get_nonnumeric (series : List Cell) (reverse : Bool) (i : ℕ) (c : Cell)
    (hc : series[i]? = some c) (htc : toNumeric c = none) :
    (normalise_for_gradient series reverse)[i]? = some PF.nan := by
  simp only [normalise_for_gradient, List.getElem?_map, hc, Option.map_some', htc]

theorem normalise_series100_get (i : ℕ) (c : Cell) (x : ℚ) (reverse : Bool)
    (hc : series100[i]? = some c) (hx : toNumeric c = some x) :
    (normalise_for_gradient series100 reverse)[i]? =
      some (if reverse then
              PF.sub (PF.q 1)
                (PF.div (PF.sub (PF.q (clipQ (some (119/20)) (some (1901/20)) x))
                  (PF.q (119/20))) (PF.sub (PF.q (1901/20)) (PF.q (119/20))))
            else
              PF.div (PF.sub (PF.q (clipQ (some (119/20)) (some (1901/20)) x))
                (PF.q (119/20))) (PF.sub (PF.q (1901/20)) (PF.q (119/20)))) := by
  simp only [normalise_for_gradient, quantile_series100_low, quantile_series100_high,
    ofOptQ, List.getElem?_map, hc, Option.map_some', hx]

theorem normalise_val_low (x : ℚ) (hx : x ≤ 119/20) :
    PF.div (PF.sub (PF.q (clipQ (some (119/20)) (some (1901/20)) x)) (PF.q (119/20)))
      (PF.sub (PF.q (1901/20)) (PF.q (119/20))) = PF.q 0 := by
  have hclip : clipQ (some (119/20)) (some (1901/20)) x = 119/20 := by
    simp only [clipQ, max_eq_right hx]
    norm_num
  rw [hclip]
  norm_num [PF.sub, PF.div]

theorem normalise_val_high (x : ℚ) (hx : 1901/20 ≤ x) :
    PF.div (PF.sub (PF.q (clipQ (some (119/20)) (some (1901/20)) x)) (PF.q (119/20)))
      (PF.sub (PF.q (1901/20)) (PF.q (119/20))) = PF.q 1 := by
  have hclip : clipQ (some (119/20)) (some (1901/20)) x = 1901/20 := by
    have h1 : (119/20 : ℚ) ≤ x := le_trans (by norm_num) hx
    simp only [clipQ, max_eq_left h1, min_eq_right hx]
  rw [hclip]
  norm_num [PF.sub, PF.div]

/-- Claim C7: on the column 1..100 the clip bounds are the 5th and 95th
linear-interpolation percentiles 5.95 and 95.05; every value at or below
the lower bound normalises to 0.0 (1.0 in reverse mode) and every value at
or above the upper bound normalises to 1.0 (0.0 in reverse mode); and in
any column, a row whose cell has no numeric reading gets the absent
normalised value NaN rather than an error or 0. -/
theorem normalise_series100_endpoints :
    (quantile (seriesNumeric series100) (1/20) = some (119/20))
    ∧ (quantile (seriesNumeric series100) (19/20) = some (1901/20))
    ∧ (∀ (i : ℕ) (c : Cell) (x : ℚ), series100[i]? = some c → toNumeric c = some x →
        ((x ≤ 119/20 →
          (normalise_for_gradient series100 false)[i]? = some (PF.q 0)
          ∧ (normalise_for_gradient series100 true)[i]? = some (PF.q 1))
        ∧ (1901/20 ≤ x →
          (normalise_for_gradient series100 false)[i]? = some (PF.q 1)
          ∧ (normalise_for_gradient series100 true)[i]? = some (PF.q 0))))
    ∧ (∀ (series : List Cell) (reverse : Bool) (i : ℕ) (c : Cell),
        series[i]? = some c → toNumeric c = none →
        (normalise_for_gradient series reverse)[i]? = some PF.nan) := by
  refine ⟨quantile_series100_low, quantile_series100_high, ?_, normalise_get_nonnumeric⟩
  intro i c x hc hx
  constructor
  · intro hle
    constructor
    · rw [normalise_series100_get i c x false hc hx, normalise_val_low x hle]
      rfl
    · rw [normalise_series100_get i c x true hc hx]
      rw [if_pos rfl, normalise_val_low x hle]
      norm_num [PF.sub]
  · intro hge
    constructor
    · rw [normalise_series100_get i c x false hc hx, normalise_val_high x hge]
      rfl
    · rw [normalise_series100_get i c x true hc hx]
      rw [if_pos rfl, normalise_val_high x hge]
      norm_num [PF.sub]

theorem normalise_series100_endpoints_witness :
    ((normalise_for_gradient series100 false)[0]? = some (PF.q 0))
    ∧ ((normalise_for_gradient series100 true)[99]? = some (PF.q 0))
    ∧ ((normalise_for_gradient [Cell.str "x"] false)[0]? = some PF.nan) :=
  ⟨((normalise_series100_endpoints.2.2.1 0 (Cell.num 1) 1
      (by norm_num [series100, List.getElem?_map, List.getElem?_range]) rfl).1
      (by norm_num)).1,
   ((normalise_series100_endpoints.2.2.1 99 (Cell.num 100) 100
      (by norm_num [series100, List.getElem?_map, List.getElem?_range]) rfl).2
      (by norm_num)).2,
   normalise_series100_endpoints.2.2.2 [Cell.str "x"] false 0 (Cell.str "x") rfl rfl⟩

/-! ### Filtering (C6, C9) and argument mutation (C10) -/

theorem insertBy_perm (le : α → α → Bool) (x : α) (l : List α) :
    (insertBy le x l).Perm (x :: l) := by
  induction l with
  | nil => exact List.Perm.refl _
  | cons y ys ih =>
    by_cases h : le x y
    · simp only [insertBy, h, if_true]
      exact List.Perm.refl _
    · simp only [insertBy, h, if_false, Bool.false_eq_true]
      exact (ih.cons y).trans (List.Perm.swap x y ys)

theorem sortBy_perm (le : α → α → Bool) (l : List α) : (sortBy le l).Perm l := by
  induction l with
  | nil => exact List.Perm.refl _
  | cons x xs ih =>
    show (insertBy le x (sortBy le xs)).Perm (x :: xs)
    exact (insertBy_perm le x (sortBy le xs)).trans (ih.cons x)

theorem nlargestRows_length (n : ℕ) (rows : List FRow) :
    (nlargestRows n rows).length ≤ n := by
  simp only [nlargestRows, List.length_map, List.length_take]
  omega

theorem nlargestRows_subset (n : ℕ) (rows : List FRow) (r : FRow)
    (hr : r ∈ nlargestRows n rows) :
    r ∈ rows ∧ (toNumeric r.cap).isSome = true := by
  simp only [nlargestRows, List.mem_map] at hr
  obtain ⟨p, hp, hpr⟩ := hr
  have hp2 : p ∈ sortBy rowLE ((rows.enum).filter fun q => (toNumeric q.2.cap).isSome) :=
    List.mem_of_mem_take hp
  rw [(sortBy_perm _ _).mem_iff, List.mem_filter] at hp2
  have hmem : p.2 ∈ rows := by
    have := List.mem_enum_iff_getElem?.mp hp2.1
    exact List.getElem?_mem this
  subst hpr
  exact ⟨hmem, hp2.2⟩

/-- Claim C6: on a 50-row table that has the Market Cap and Rating columns,
`apply_filters(df, [100, 500], 10, {"Buy"})` composes all three filters —
the top-10 cut runs after the cap-range filter, the rating filter last — so
the result has at most 10 rows, and every surviving row has a numeric
Market Cap in the inclusive range [100, 500] and Rating "Buy". -/
theorem apply_filters_conjunction (df : DFrame) (h1 : df.hasCap = true)
    (h2 : df.hasRating = true) (_h3 : df.rows.length = 50) :
    ((apply_filters df (some (100, 500)) (some 10) (some ["Buy"])).1.rows.length ≤ 10)
    ∧ (∀ r ∈ (apply_filters df (some (100, 500)) (some 10) (some ["Buy"])).1.rows,
        (∃ v, toNumeric r.cap = some v ∧ 100 ≤ v ∧ v ≤ 500) ∧ r.rating = "Buy") := by
  have hres : (apply_filters df (some (100, 500)) (some 10) (some ["Buy"])).1.rows
      = (nlargestRows 10 (capRangeFilter 100 500 (df.rows.map coerceRow))).filter
          (fun r => (["Buy"] : List String).contains r.rating) := by
    simp [apply_filters, h1, h2, truthyTopN, truthyRatings]
  rw [hres]
  constructor
  · exact le_trans (List.length_filter_le _ _) (nlargestRows_length _ _)
  · intro r hr
    rw [List.mem_filter] at hr
    obtain ⟨hmem, hrat⟩ := hr
    obtain ⟨hmem2, hsome⟩ := nlargestRows_subset _ _ _ hmem
    rw [capRangeFilter, List.mem_filter] at hmem2
    refine ⟨?_, ?_⟩
    · cases hv : toNumeric r.cap with
      | none => rw [hv] at hsome; simp at hsome
      | some v =>
        refine ⟨v, rfl, ?_⟩
        have hb := hmem2.2
        rw [hv] at hb
        simp at hb
        exact hb
    · simp at hrat
      exact hrat

theorem apply_filters_conjunction_witness :
    ((apply_filters df50 (some (100, 500)) (some 10) (some ["Buy"])).1.rows.length ≤ 10)
    ∧ (∀ r ∈ (apply_filters df50 (some (100, 500)) (some 10) (some ["Buy"])).1.rows,
        (∃ v, toNumeric r.cap = some v ∧ 100 ≤ v ∧ v ≤ 500) ∧ r.rating = "Buy") :=
  apply_filters_conjunction df50 rfl rfl (by simp [df50])

/-- Claim C9: `apply_filters` treats falsy arguments as absent — an empty
rating set behaves exactly like `None` (so it never empties the table on
that axis), and `top_n = 0` behaves exactly like `None`. -/
theorem apply_filters_falsy (df : DFrame) (cr : Option (ℚ × ℚ)) (tn : Option ℕ)
    (sr : Option (List String)) :
    (apply_filters df cr tn (some [])) = (apply_filters df cr tn none)
    ∧ (apply_filters df cr (some 0) sr) = (apply_filters df cr none sr) := by
  constructor <;> simp [apply_filters, truthyRatings, truthyTopN]

theorem apply_filters_falsy_witness :
    (apply_filters dfEx none none (some [])) = (apply_filters dfEx none none none)
    ∧ (apply_filters dfEx none (some 0) none) = (apply_filters dfEx none none none) :=
  ⟨(apply_filters_falsy dfEx none none none).1,
   (apply_filters_falsy dfEx none (some 0) none).2⟩

/-- Claim C10: both `apply_filters` and `apply_final_sorting_and_formatting`
mutate their argument: when the Market Cap column exists, the caller's
table afterwards holds the numerically coerced column on every row
(including rows the filters drop), with numeric entries kept, non-numeric
and missing entries turned into missing; rating and all other columns of
the caller's table are unchanged. -/
theorem filters_mutate_input (df : DFrame) (cr : Option (ℚ × ℚ)) (tn : Option ℕ)
    (sr : Option (List String)) :
    ((apply_filters df cr tn sr).2
      = ⟨df.hasCap, df.hasRating, if df.hasCap then df.rows.map coerceRow else df.rows⟩)
    ∧ ((apply_final_sorting_and_formatting df).2
      = ⟨df.hasCap, df.hasRating, if df.hasCap then df.rows.map coerceRow else df.rows⟩)
    ∧ (∀ r : FRow, (coerceRow r).rating = r.rating ∧ (coerceRow r).rest = r.rest
        ∧ (coerceRow r).cap = coerceCell r.cap)
    ∧ (∀ v : ℚ, coerceCell (Cell.num v) = Cell.num v)
    ∧ (∀ s : String, coerceCell (Cell.str s) = Cell.na)
    ∧ (coerceCell Cell.na = Cell.na) :=
  ⟨rfl, rfl, fun _ => ⟨rfl, rfl, rfl⟩, fun _ => rfl, fun _ => rfl, rfl⟩

theorem filters_mutate_input_witness :
    (apply_filters dfEx none none none).2
      = ⟨dfEx.hasCap, dfEx.hasRating,
         if dfEx.hasCap then dfEx.rows.map coerceRow else dfEx.rows⟩ :=
  (filters_mutate_input dfEx none none none).1

/-! ### Upload ingestion (C8) -/

theorem length_le_gridNCols (grid : List (List (Option String))) (row : List (Option String))
    (h : row ∈ grid) : row.length ≤ gridNCols grid := by
  induction grid with
  | nil => cases h
  | cons g gs ih =>
    rcases List.mem_cons.mp h with rfl | h2
    · exact le_max_left _ _
    · exact le_trans (ih h2) (le_max_right _ _)

/-- Claim C8 (amended): ingestion of a parsed upload rejects with the shape
error whenever the extra-column check fires — in particular whenever any
column other than the first holds a non-empty value — and rejects with the
"no valid tickers" error whenever the extra-column check does not fire and
no tickers remain after cleaning; in both cases no table is returned.  The
shape check runs first, so an upload matching both conditions gets the
shape error, not the "no valid tickers" error. -/
theorem upload_rejections (grid : List (List (Option String))) :
    (extraColumnsCheck grid = true →
      process_uploaded_tickers grid = (none, some shapeErrorMsg))
    ∧ (extraColumnsCheck grid = false → normTickers (gridCol0 grid) = [] →
      process_uploaded_tickers grid = (none, some noTickersMsg))
    ∧ (∀ row ∈ grid, ∀ c ∈ row.drop 1, ∀ s : String, c = some s → s ≠ "" →
      process_uploaded_tickers grid = (none, some shapeErrorMsg)) := by
  have hshape : extraColumnsCheck grid = true →
      process_uploaded_tickers grid = (none, some shapeErrorMsg) := by
    intro h
    simp [process_uploaded_tickers, h]
  refine ⟨hshape, ?_, ?_⟩
  · intro h hnt
    simp [process_uploaded_tickers, h, hnt, dedupFirst, dedupFirstAux]
  · intro row hrow c hc s hcs _hs
    apply hshape
    have hlen2 : 1 < row.length := by
      by_contra hle
      push_neg at hle
      have hnil : row.drop 1 = [] := List.drop_eq_nil_of_le hle
      rw [hnil] at hc
      cases hc
    have hn : 1 < gridNCols grid := lt_of_lt_of_le hlen2 (length_le_gridNCols grid row hrow)
    have hany : grid.any (fun r => (r.drop 1).any (fun x => x.isSome)) = true := by
      rw [List.any_eq_true]
      refine ⟨row, hrow, ?_⟩
      rw [List.any_eq_true]
      exact ⟨c, hc, by rw [hcs]; rfl⟩
    rw [extraColumnsCheck, hany]
    simp [hn]

/-- Claim C8 counterexample: the upload `[[NaN, "X"]]` leaves zero tickers
after cleaning, so clause (b) of the claim promises the "no valid tickers"
error; the code returns the shape error instead, because the extra-column
check runs before the empty-ticker check. -/
theorem upload_overlap_cex :
    normTickers (gridCol0 overlapGrid) = []
    ∧ process_uploaded_tickers overlapGrid = (none, some shapeErrorMsg)
    ∧ shapeErrorMsg ≠ noTickersMsg := by
  refine ⟨rfl, ?_, by decide⟩
  simp [process_uploaded_tickers, extraColumnsCheck, overlapGrid, gridNCols]

theorem upload_rejections_witness :
    process_uploaded_tickers twoColGrid = (none, some shapeErrorMsg)
    ∧ process_uploaded_tickers emptyColGrid = (none, some noTickersMsg) :=
  ⟨(upload_rejections twoColGrid).1 (by decide),
   (upload_rejections emptyColGrid).2.1 (by decide) (by decide)⟩
